import Mathlib

/-!
Verification of the custref-to-sql converter.

The definitions below are a shallow embedding of `src/custref_to_sql/main.py`:
Python strings become `String`, parsed field values become the sum type `Val`
(Python `str` / `int` / `bool`), dictionaries become association lists looked
up with last-binding-wins semantics (matching `dict.update` override order),
and code that can raise becomes `Except PErr`.
-/

set_option autoImplicit false

namespace CustRef

/-- Python `str.lower()` restricted to what this program feeds it (ASCII). -/
def pyLower (s : String) : String :=
  ⟨s.data.map Char.toLower⟩

/-- `to_sql_name`: `name.lower().replace(' ', '_')`. -/
def to_sql_name (name : String) : String :=
  ⟨name.data.map (fun c => if c.toLower = ' ' then '_' else c.toLower)⟩

/-- A parsed field value: the Python values that flow through rows are
strings, integers and booleans. -/
inductive Val where
  | vStr (s : String)
  | vInt (i : Int)
  | vBool (b : Bool)
  deriving DecidableEq, Repr

/-- Errors the program can raise. -/
inductive PErr where
  /-- `RuntimeError` from `fsm`: names the expected successor set and token. -/
  | invalidTransition (expected : List String) (got : String)
  /-- Python `IndexError` from an out-of-bounds list index. -/
  | indexError
  /-- `InconsistentState` with its message. -/
  | inconsistentState (msg : String)
  /-- Python `ValueError` from `int()` on a non-numeric string. -/
  | valueError (s : String)
  /-- Python `KeyError` from a missing dict key. -/
  | keyError (k : String)
  /-- Python `TypeError`/`AttributeError` from a serializer given a value of
  the wrong runtime type. -/
  | typeError (k : String)
  deriving DecidableEq, Repr

/-- `quote_sql_string`, char by char: `value.replace("'", "''")`. -/
def quoteSqlChars : List Char → List Char
  | [] => []
  | c :: cs =>
    if c = '\'' then '\'' :: '\'' :: quoteSqlChars cs
    else c :: quoteSqlChars cs

/-- `quote_sql_string(value)`. -/
def quote_sql_string (value : String) : String :=
  ⟨quoteSqlChars value.data⟩

/-- `deserialize_text(value)`: identity. -/
def deserialize_text (value : String) : String := value

/-- `serialize_text(value)`: `"'{}'".format(quote_sql_string(value))`. -/
def serialize_text (value : String) : String :=
  ⟨'\'' :: quoteSqlChars value.data ++ ['\'']⟩

/-- `deserialize_yesno(value)`: `value.lower() == 'yes'`. -/
def deserialize_yesno (value : String) : Bool :=
  pyLower value = "yes"

/-- `serialize_yesno(value)`: `str(1 if value else 0)`. -/
def serialize_yesno (value : Bool) : String :=
  if value then "1" else "0"

/-- Decimal digits of a natural number, most significant first.  The first
argument is recursion fuel (any fuel larger than the number of digits gives
the full answer). -/
def natDecimalAux : Nat → Nat → List Char
  | 0, _ => []
  | fuel + 1, n =>
    if n < 10 then [Nat.digitChar n]
    else natDecimalAux fuel (n / 10) ++ [Nat.digitChar (n % 10)]

/-- Decimal rendering of a natural number. -/
def natDecimal (n : Nat) : String :=
  ⟨natDecimalAux (n + 1) n⟩

/-- Python `str` on an `int`: decimal digits with a leading `-` when
negative. -/
def intDecimal (i : Int) : String :=
  if i < 0 then "-" ++ natDecimal i.natAbs else natDecimal i.toNat

/-- `serialize_integer(value)`: `str(value)`. -/
def serialize_integer (value : Int) : String := intDecimal value

/-- Numeric value of a digit list (most significant first). -/
def digitsVal (l : List Char) : Nat :=
  l.foldl (fun acc c => acc * 10 + (c.toNat - '0'.toNat)) 0

/-- Python `int(value)`: an optional sign followed by decimal digits;
anything else raises `ValueError` (here: `none`). -/
def pyInt (s : String) : Option Int :=
  match s.data with
  | [] => none
  | '-' :: rest =>
    if rest ≠ [] ∧ rest.all Char.isDigit then some (-(digitsVal rest : Int))
    else none
  | '+' :: rest =>
    if rest ≠ [] ∧ rest.all Char.isDigit then some (digitsVal rest : Int)
    else none
  | l =>
    if l.all Char.isDigit then some (digitsVal l : Int) else none

/-- `deserialize_integer(value)`: `int(value)`. -/
def deserialize_integer (value : String) : Option Int := pyInt value

/-- The three built-in field kinds (`text`, `integer`, `yesno`). -/
inductive FKind where
  | text
  | integer
  | yesno
  deriving DecidableEq, Repr

/-- The `sql_type` class attribute of each field kind. -/
def sqlTypeName : FKind → String
  | .text => "TEXT"
  | .integer => "INTEGER"
  | .yesno => "INTEGER"

/-- Dispatch of the kind's `deserialize` on a raw CSV cell. `none` models a
raised `ValueError`. -/
def deserializeValue : FKind → String → Option Val
  | .text, s => some (.vStr (deserialize_text s))
  | .integer, s => (deserialize_integer s).map .vInt
  | .yesno, s => some (.vBool (deserialize_yesno s))

/-- Dispatch of the kind's `serialize` on a stored value.  `none` models the
runtime type error Python would raise on a value of the wrong type. -/
def serializeValue : FKind → Val → Option String
  | .text, .vStr s => some (serialize_text s)
  | .integer, .vInt i => some (serialize_integer i)
  | .yesno, .vBool b => some (serialize_yesno b)
  | _, _ => none

/-- An `InOutType` instance: its kind plus whether `serialize` /
`deserialize` are present (the `no_sql()` / `no_csv()` constructors set one
of them to `None`). -/
structure FieldType where
  kind : FKind
  hasSer : Bool
  hasDeser : Bool
  deriving DecidableEq, Repr

/-- The plain class used as a field type (both functions present). -/
def ftype (k : FKind) : FieldType := ⟨k, true, true⟩

/-- `cls.no_sql()`: `serialize=None`. -/
def ftypeNoSql (k : FKind) : FieldType := ⟨k, false, true⟩

/-- `cls.no_csv()`: `deserialize=None`. -/
def ftypeNoCsv (k : FKind) : FieldType := ⟨k, true, false⟩

/-- `InOutType.is_sql`: `sql_type and serialize is not None` (all three
kinds carry a non-empty `sql_type`). -/
def FieldType.is_sql (ft : FieldType) : Bool := ft.hasSer

/-- `InOutType.is_csv`: `deserialize is not None`. -/
def FieldType.is_csv (ft : FieldType) : Bool := ft.hasDeser

/-- A `Column`: normalized name plus field type. -/
structure Column where
  name : String
  ft : FieldType
  deriving DecidableEq, Repr

/-- `Column.__init__` applies `to_sql_name` to the name. -/
def mkColumn (name : String) (ft : FieldType) : Column :=
  ⟨to_sql_name name, ft⟩

/-- `Column.is_sql`. -/
def Column.is_sql (c : Column) : Bool := c.ft.is_sql

/-- `Column.is_csv`. -/
def Column.is_csv (c : Column) : Bool := c.ft.is_csv

/-- A parsed row: a Python dict as an association list.  Lookups take the
last binding for a key, so appending models `dict.update` override. -/
abbrev Row := List (String × Val)

/-- Dict lookup, last binding wins. -/
def dlookup : Row → String → Option Val
  | [], _ => none
  | (k', v) :: rest, k =>
    match dlookup rest k with
    | some w => some w
    | none => if k' = k then some v else none

/-- `merge(row, extra)` where `extra` may be `None` (falsy values are
skipped by `merge`); later entries override earlier ones. -/
def merge2 (row : Row) (extra : Option Row) : Row :=
  row ++ extra.getD []

/-- A `Table`: name, ordered columns, ordered foreign-key columns. -/
structure Table where
  name : String
  columns : List Column
  foreign_keys : List Column
  deriving DecidableEq, Repr

/-- `Table.only_sql_columns`. -/
def Table.only_sql_columns (t : Table) : List Column :=
  t.columns.filter (·.is_sql)

/-- `Table.only_csv_columns`. -/
def Table.only_csv_columns (t : Table) : List Column :=
  t.columns.filter (·.is_csv)

/-- Python `', '.join` (and the empty/singleton cases agree with it). -/
def joinSep (sep : String) : List String → String
  | [] => ""
  | [x] => x
  | x :: xs => x ++ sep ++ joinSep sep xs

/-- `Table.create_sql()`. -/
def Table.create_sql (t : Table) : String :=
  let cols := t.only_sql_columns ++ t.foreign_keys
  let cols_sql := cols.map (fun c => c.name ++ " " ++ sqlTypeName c.ft.kind)
  "CREATE TABLE " ++ t.name ++ " (" ++ joinSep ", " cols_sql ++ ");"

/-- The dict comprehension of `Table.parse_csv`: deserialize each
(column, cell) pair in order, propagating the first `ValueError`. -/
def parseCells : List (Column × String) → Except PErr Row
  | [] => .ok []
  | (c, v) :: rest =>
    match deserializeValue c.ft.kind v with
    | none => .error (.valueError v)
    | some val =>
      match parseCells rest with
      | .error e => .error e
      | .ok r => .ok ((c.name, val) :: r)

/-- `Table.parse_csv(data)`: zip CSV columns against the cells and
deserialize each. -/
def Table.parse_csv (t : Table) (data : List String) : Except PErr Row :=
  parseCells (t.only_csv_columns.zip data)

/-- Serialize one column's value out of a row (`row[col.name]` then
`col.field_type.serialize`). -/
def serializeCol (row : Row) (c : Column) : Except PErr String :=
  match dlookup row c.name with
  | none => .error (.keyError c.name)
  | some v =>
    match serializeValue c.ft.kind v with
    | none => .error (.typeError c.name)
    | some s => .ok s

/-- The list comprehension building `data` in `Table.insert_sql`. -/
def serializeCols (row : Row) : List Column → Except PErr (List String)
  | [] => .ok []
  | c :: cs =>
    match serializeCol row c with
    | .error e => .error e
    | .ok v =>
      match serializeCols row cs with
      | .error e => .error e
      | .ok vs => .ok (v :: vs)

/-- `Table.insert_sql(row, foreign_keys)`. -/
def Table.insert_sql (t : Table) (row : Row) (fks : Option Row) :
    Except PErr String :=
  let fkRow := fks.getD []
  let fk_cols :=
    if fkRow.isEmpty then []
    else t.foreign_keys.filter (fun c => (dlookup fkRow c.name).isSome)
  let columns := t.only_sql_columns ++ fk_cols
  let row' := merge2 row (some fkRow)
  match serializeCols row' columns with
  | .error e => .error e
  | .ok data =>
    .ok ("INSERT INTO " ++ t.name ++ " (" ++
      joinSep ", " (columns.map (·.name)) ++ ") VALUES (" ++
      joinSep ", " data ++ ");")

/-- `DATA_TYPE_HEADERS['CUST']`. -/
def custTable : Table :=
  { name := to_sql_name "customers"
    columns := [
      mkColumn "record_type" (ftypeNoSql .text),
      mkColumn "customer_code" (ftype .text),
      mkColumn "name" (ftype .text),
      mkColumn "name_extra" (ftype .text),
      mkColumn "address_number" (ftype .text),
      mkColumn "address_line_1" (ftype .text),
      mkColumn "address_line_2" (ftype .text),
      mkColumn "address_line_3" (ftype .text),
      mkColumn "address_line_4" (ftype .text),
      mkColumn "address_line_5" (ftype .text),
      mkColumn "contact_name" (ftype .text),
      mkColumn "contact_extra" (ftype .text),
      mkColumn "language_code" (ftype .text),
      mkColumn "language" (ftype .text),
      mkColumn "headquarter" (ftype .yesno),
      mkColumn "headquarter_code" (ftype .text),
      mkColumn "telephone" (ftype .text),
      mkColumn "mobile_phone" (ftype .text),
      mkColumn "insert_date" (ftypeNoCsv .text),
      mkColumn "insert_time" (ftypeNoCsv .text)]
    foreign_keys := [] }

/-- `DATA_TYPE_HEADERS['REF']`. -/
def refTable : Table :=
  { name := to_sql_name "customer_references"
    columns := [
      mkColumn "record_type" (ftypeNoSql .text),
      mkColumn "reference_identifier" (ftype .text),
      mkColumn "length" (ftype .integer),
      mkColumn "mandatory" (ftype .yesno),
      mkColumn "numeric_only" (ftype .yesno),
      mkColumn "folf_start_position" (ftype .integer),
      mkColumn "folf_length" (ftype .integer),
      mkColumn "print_on_invoice" (ftype .yesno),
      mkColumn "check_type" (ftype .text),
      mkColumn "send_to_crs" (ftype .yesno),
      mkColumn "validation_mask" (ftype .text),
      mkColumn "internal_name" (ftype .text),
      mkColumn "customer_reference_desc" (ftype .text),
      mkColumn "dbi_connector" (ftype .text),
      mkColumn "dbi_connector_desc" (ftype .text),
      mkColumn "alphabetic_only" (ftype .yesno),
      mkColumn "no_special_characters" (ftype .yesno),
      mkColumn "only_capital_letters" (ftype .yesno),
      mkColumn "minimum_length" (ftype .integer),
      mkColumn "reference_type" (ftype .text),
      mkColumn "insert_date" (ftypeNoCsv .text),
      mkColumn "insert_time" (ftypeNoCsv .text)]
    foreign_keys := [mkColumn "customer_code" (ftype .text)] }

/-- An open or finalized customer record: its parsed fields plus the
`references` sequence (`[]` models an absent `references` key; the key is
only ever created together with a first appended reference, so absent and
empty are interchangeable for every use in the program). -/
structure Cust where
  fields : Row
  refs : List Row
  deriving DecidableEq, Repr

/-- Python truthiness of the customer dict (nonempty). In every reachable
state `refs ≠ [] → fields ≠ []`, so dict truthiness is this disjunction. -/
def custTruthy (c : Cust) : Bool :=
  !c.fields.isEmpty || !c.refs.isEmpty

/-- The mutable processing-state dict threaded through the callbacks.
`none` models an absent key; `append_to_cust` / `append_to_ref` hold the
header extras (lists of key–value pairs, as in the source). -/
structure PState where
  current_customer : Option Cust
  customers : List Cust
  append_to_cust : Option Row
  append_to_ref : Option Row
  deriving DecidableEq, Repr

/-- `state.get('current_customer')` is truthy: a customer is open. -/
def isOpen (s : PState) : Bool :=
  match s.current_customer with
  | some c => custTruthy c
  | none => false

/-- `exit_H_CUST(state)`: pop `current_customer`; if truthy append it to
`customers`. -/
def exit_H_CUST (s : PState) : PState :=
  match s.current_customer with
  | none => s
  | some c =>
    if custTruthy c then
      { s with current_customer := none, customers := s.customers ++ [c] }
    else
      { s with current_customer := none }

/-- `enter_final(state, data)`: same flush as `exit_H_CUST`. -/
def enter_final (s : PState) (_data : List String) : PState :=
  exit_H_CUST s

/-- `enter_CUST(state, data)`. -/
def enter_CUST (s : PState) (data : List String) : Except PErr PState :=
  if isOpen s then
    .error (.inconsistentState "Found unflushed CUST record when processing a new one")
  else
    match custTable.parse_csv data with
    | .error e => .error e
    | .ok row =>
      .ok { s with current_customer := some ⟨merge2 row s.append_to_cust, []⟩ }

/-- `enter_REF(state, data)`. -/
def enter_REF (s : PState) (data : List String) : Except PErr PState :=
  match s.current_customer with
  | none => .error (.inconsistentState "Found REF but no current customer")
  | some c =>
    if custTruthy c then
      match refTable.parse_csv data with
      | .error e => .error e
      | .ok row =>
        let c' : Cust := { c with refs := c.refs ++ [merge2 row s.append_to_ref] }
        .ok { s with current_customer := some c' }
    else
      .error (.inconsistentState "Found REF but no current customer")

/-- The `extra` pair list built by `enter_H` from `data[7]` and `data[8]`. -/
def hdrExtra (d7 d8 : String) : Row :=
  [("insert_date", .vStr d7), ("insert_time", .vStr d8)]

/-- `enter_H(state, data)`: indexes `data[7]` and `data[8]` unguarded. -/
def enter_H (s : PState) (data : List String) : Except PErr PState :=
  match data.get? 7, data.get? 8 with
  | some d7, some d8 =>
    .ok { s with
      append_to_ref := some (hdrExtra d7 d8)
      append_to_cust := some (hdrExtra d7 d8) }
  | _, _ => .error .indexError

/-- The FSM state names (keys of `STATES`). -/
inductive St where
  | initial
  | H
  | S
  | H_CUST
  | CUST
  | H_REF
  | REF
  | MEDIUM
  | final
  deriving DecidableEq, Repr

/-- The `valid_states` entry of each state descriptor (`none` when the key
is absent). -/
def validStates : St → Option (List String)
  | .initial => some ["H", "*"]
  | .H => some ["H_CUST", "S"]
  | .S => some ["H_CUST"]
  | .H_CUST => some ["CUST", "H_REF"]
  | .CUST => some ["H_REF", "H_CUST", "MEDIUM"]
  | .H_REF => some ["REF"]
  | .REF => some ["REF", "H_CUST", "MEDIUM"]
  | .MEDIUM => none
  | .final => none

/-- Key lookup in the `STATES` dict (`none` models a `KeyError`). -/
def nameToState (s : String) : Option St :=
  if s = "__initial__" then some .initial
  else if s = "H" then some .H
  else if s = "S" then some .S
  else if s = "H_CUST" then some .H_CUST
  else if s = "CUST" then some .CUST
  else if s = "H_REF" then some .H_REF
  else if s = "REF" then some .REF
  else if s = "MEDIUM" then some .MEDIUM
  else if s = "__final__" then some .final
  else none

/-- The `'final'` flag of a descriptor. -/
def isFinalSt : St → Bool
  | .final => true
  | _ => false

/-- `fsm(action, data)`.  Distinct states have distinct descriptor dicts,
so the Python dict (in)equality used by the caller coincides with `St`
equality and descriptors are represented by their state names. -/
def fsm (action : St) (data : List String) : Except PErr St :=
  match validStates action with
  | none => .ok .final
  | some valid_states =>
    match data.head? with
    | none => .error .indexError
    | some maybe_next =>
      if maybe_next ∈ valid_states then
        match nameToState maybe_next with
        | some st => .ok st
        | none => .error (.keyError maybe_next)
      else if "*" ∈ valid_states then .ok action
      else .error (.invalidTransition valid_states maybe_next)

/-- The `'exit'` callback of a descriptor (identity when absent). -/
def runExit (a : St) (s : PState) : PState :=
  match a with
  | .H_CUST => exit_H_CUST s
  | _ => s

/-- The `'enter'` callback of a descriptor (no-op when absent). -/
def runEnter (a : St) (s : PState) (data : List String) : Except PErr PState :=
  match a with
  | .H => enter_H s data
  | .CUST => enter_CUST s data
  | .REF => enter_REF s data
  | .final => .ok (enter_final s data)
  | _ => .ok s

/-- One iteration of the read loop in `main` on one row: transition, run
the old state's exit on a state change, run the new state's enter. -/
def step (s : PState) (a : St) (data : List String) :
    Except PErr (PState × St) :=
  match fsm a data with
  | .error e => .error e
  | .ok na =>
    let s₁ := if na ≠ a then runExit a s else s
    match runEnter na s₁ data with
    | .error e => .error e
    | .ok s₂ => .ok (s₂, na)

/-- The read loop of `main`: end of input just breaks out of the loop (the
`__final__` descriptor is never entered for it), and reaching a final
descriptor breaks right after its enter callback ran. -/
def run : PState → St → List (List String) → Except PErr PState
  | s, _, [] => .ok s
  | s, a, data :: rest =>
    match step s a data with
    | .error e => .error e
    | .ok (s₂, na) => if isFinalSt na then .ok s₂ else run s₂ na rest

/-- The initial processing state (`state = {}`). -/
def initPState : PState := ⟨none, [], none, none⟩

/-- The per-customer block of `as_sql`: the customer INSERT followed by one
INSERT per reference with `customer_code` injected as foreign key. -/
def refInsertLines (code : Val) : List Row → Except PErr (List String)
  | [] => .ok []
  | r :: rs =>
    match refTable.insert_sql r (some [("customer_code", code)]) with
    | .error e => .error e
    | .ok l =>
      match refInsertLines code rs with
      | .error e => .error e
      | .ok ls => .ok (l :: ls)

/-- One customer's lines: its INSERT, then its references' INSERTs. -/
def custInsertLines (c : Cust) : Except PErr (List String) :=
  match custTable.insert_sql c.fields none with
  | .error e => .error e
  | .ok ci =>
    match dlookup c.fields "customer_code" with
    | none => .error (.keyError "customer_code")
    | some code =>
      match refInsertLines code c.refs with
      | .error e => .error e
      | .ok rls => .ok (ci :: rls)

/-- All finalized customers' lines, in arrival order. -/
def customersLines : List Cust → Except PErr (List String)
  | [] => .ok []
  | c :: cs =>
    match custInsertLines c with
    | .error e => .error e
    | .ok a =>
      match customersLines cs with
      | .error e => .error e
      | .ok b => .ok (a ++ b)

/-- `as_sql(state, create)` as the list of yielded lines. -/
def as_sql (s : PState) (create : Bool) : Except PErr (List String) :=
  let head := ["BEGIN TRANSACTION;"] ++
    (if create then ["", "-- Create tables", refTable.create_sql, custTable.create_sql]
     else []) ++ [""]
  match s.customers with
  | [] => .ok (head ++ [""] ++ ["COMMIT;"])
  | cs =>
    match customersLines cs with
    | .error e => .error e
    | .ok ls => .ok (head ++ ("-- Customers" :: ls) ++ [""] ++ ["COMMIT;"])

/-- `main`: run the read loop from the initial state over the input rows,
then emit the state as SQL lines. -/
def runMain (rows : List (List String)) (create : Bool) :
    Except PErr (List String) :=
  match run initPState .initial rows with
  | .error e => .error e
  | .ok st => as_sql st create

/-! Observation helpers used to state the claims (not part of the source). -/

/-- `listStarts l p`: `p` is an initial segment of `l`. -/
def listStarts : List Char → List Char → Bool
  | _, [] => true
  | [], _ :: _ => false
  | c :: cs, p :: ps => c = p && listStarts cs ps

/-- `strStarts s p`: the string `s` starts with `p`. -/
def strStarts (s p : String) : Bool := listStarts s.data p.data

/-- `listHasSub l p`: `p` occurs as a contiguous sublist of `l`. -/
def listHasSub : List Char → List Char → Bool
  | [], p => p.isEmpty
  | c :: cs, p => listStarts (c :: cs) p || listHasSub cs p

/-- `strHasSub s p`: the string `s` has `p` as a substring. -/
def strHasSub (s p : String) : Bool := listHasSub s.data p.data

/-- How many lines start with the given text. -/
def countStarting (lines : List String) (p : String) : Nat :=
  (lines.filter (fun l => strStarts l p)).length

/-- Every quote in the list is immediately followed by a second quote that
closes the pair: no lone single quote. -/
def quotesPaired : List Char → Bool
  | [] => true
  | c :: cs =>
    if c = '\'' then
      match cs with
      | [] => false
      | c2 :: cs2 => c2 = '\'' && quotesPaired cs2
    else quotesPaired cs

/-- A syntactically valid SQL TEXT literal: wrapped in single quotes, every
embedded quote doubled. -/
def validTextLit (s : String) : Bool :=
  match s.data with
  | '\'' :: rest => rest.getLast? = some '\'' && quotesPaired rest.dropLast
  | _ => false

/-- A syntactically valid SQL INTEGER literal: decimal digits, optionally
preceded by a minus sign. -/
def validIntLit (s : String) : Bool :=
  match s.data with
  | [] => false
  | c :: rest =>
    if c = '-' then !rest.isEmpty && rest.all Char.isDigit
    else (c :: rest).all Char.isDigit

/-- The spec's description of `parse_csv`: positionally zip the columns
against the cells and deserialize each, all-or-nothing. -/
def zipDeser : List (Column × String) → Option Row
  | [] => some []
  | (c, v) :: rest =>
    match deserializeValue c.ft.kind v with
    | none => none
    | some val => (zipDeser rest).map (fun r => (c.name, val) :: r)

/-- A header row with nine cells (`data[7] = "d1"`, `data[8] = "d2"`). -/
def sampleH : List String :=
  ["H", "h1", "h2", "h3", "h4", "h5", "h6", "d1", "d2"]

/-- A `CUST` row covering all 18 CSV columns of the customer table. -/
def sampleCust : List String :=
  ["CUST", "C001", "Acme", "x", "1", "a1", "a2", "a3", "a4", "a5",
   "cn", "ce", "en", "English", "yes", "HQ1", "t", "m"]

/-- A `REF` row covering all 20 CSV columns of the reference table. -/
def sampleRef : List String :=
  ["REF", "R1", "5", "yes", "no", "1", "2", "no", "ct", "no",
   "vm", "in", "crd", "dc", "dcd", "no", "no", "no", "3", "rt"]

/-- The claim's end-to-end input: a header row, then a `CUST` row, then a
`REF` row, then end of input. -/
def c1ClaimRows : List (List String) := [sampleH, sampleCust, sampleRef]

/-- The smallest input accepted by the transition table that realises the
claim's scenario: the structural `H_CUST` / `H_REF` marker rows precede the
data rows, and a `MEDIUM` row plus one further row drive the machine into
`__final__` so the open customer is flushed. -/
def c1AmendedRows : List (List String) :=
  [sampleH, ["H_CUST"], sampleCust, ["H_REF"], sampleRef, ["MEDIUM"], ["X"]]

/-- A valid prefix of a stream that ends while its customer is still open:
header, `H_CUST` marker, one `CUST` row, then end of input. -/
def c2BugRows : List (List String) := [sampleH, ["H_CUST"], sampleCust]

/-- The lines `runMain c1AmendedRows false` emits. -/
def c1Out : List String :=
  ["BEGIN TRANSACTION;", "", "-- Customers",
   "INSERT INTO customers (customer_code, name, name_extra, address_number, address_line_1, address_line_2, address_line_3, address_line_4, address_line_5, contact_name, contact_extra, language_code, language, headquarter, headquarter_code, telephone, mobile_phone, insert_date, insert_time) VALUES ('C001', 'Acme', 'x', '1', 'a1', 'a2', 'a3', 'a4', 'a5', 'cn', 'ce', 'en', 'English', 1, 'HQ1', 't', 'm', 'd1', 'd2');",
   "INSERT INTO customer_references (reference_identifier, length, mandatory, numeric_only, folf_start_position, folf_length, print_on_invoice, check_type, send_to_crs, validation_mask, internal_name, customer_reference_desc, dbi_connector, dbi_connector_desc, alphabetic_only, no_special_characters, only_capital_letters, minimum_length, reference_type, insert_date, insert_time, customer_code) VALUES ('R1', 5, 1, 0, 1, 2, 0, 'ct', 0, 'vm', 'in', 'crd', 'dc', 'dcd', 0, 0, 0, 3, 'rt', 'd1', 'd2', 'C001');",
   "", "COMMIT;"]

/-- A processing state with one open ( truthy) customer. -/
def openState : PState :=
  { current_customer := some ⟨[("record_type", .vStr "CUST"),
      ("customer_code", .vStr "C001")], []⟩
    customers := []
    append_to_cust := none
    append_to_ref := none }

/-! Claim theorems. -/

set_option maxRecDepth 10000 in
/-- Claim C1, counterexample: on the input rows `H;...;d1;d2` then
`CUST;C001;Acme;...` then `REF;R1;5;yes;...` the program does not produce
any SQL at all — `CUST` is not a legal successor of the `H` state, so the
transition function aborts with an invalid-transition error before
emission. -/
theorem c1_counterexample :
    runMain c1ClaimRows false =
      Except.error (PErr.invalidTransition ["H_CUST", "S"] "CUST") := by
  rfl

set_option maxRecDepth 100000 in
/-- Claim C1, amended: with the structural `H_CUST` / `H_REF` marker rows
interleaved as the transition table requires, and a `MEDIUM` row plus one
further row so the machine reaches `__final__` (end of input alone does not
flush), the output contains exactly one customer INSERT, it carries `C001`,
exactly one reference INSERT, that one carries `customer_code` with value
`'C001'`, the customer INSERT precedes the reference INSERT, and the last
line is `COMMIT;`. -/
theorem c1_amended_ok :
    ∃ out, runMain c1AmendedRows false = Except.ok out ∧
      countStarting out "INSERT INTO customers " = 1 ∧
      countStarting out "INSERT INTO customer_references " = 1 ∧
      (out.filter (fun l => strStarts l "INSERT INTO customers ")).all
        (fun l => strHasSub l "'C001'") = true ∧
      (out.filter (fun l => strStarts l "INSERT INTO customer_references ")).all
        (fun l => strHasSub l "customer_code" && strHasSub l "'C001'") = true ∧
      out.findIdx (fun l => strStarts l "INSERT INTO customers ") <
        out.findIdx (fun l => strStarts l "INSERT INTO customer_references ") ∧
      out.getLast? = some "COMMIT;" :=
  ⟨c1Out, by rfl, by decide, by decide, by decide, by decide, by decide, by decide⟩

set_option maxRecDepth 100000 in
/-- Claim C2, code-bug evidence: the stream header / `H_CUST` / `CUST` is
accepted without error, contains one `CUST` row, yet the emitted SQL holds
zero customer INSERTs: at end of input the read loop breaks without
entering `__final__`, so the still-open customer is never flushed.  The
last conjunct shows the customer is indeed still open when input ends. -/
theorem c2_lost_last_customer :
    runMain c2BugRows false =
      Except.ok ["BEGIN TRANSACTION;", "", "", "COMMIT;"] ∧
    countStarting ["BEGIN TRANSACTION;", "", "", "COMMIT;"]
      "INSERT INTO customers " = 0 ∧
    (c2BugRows.filter (fun r => r.head? = some "CUST")).length = 1 ∧
    (run initPState .initial c2BugRows).map
      (fun st => st.current_customer.isSome) = Except.ok true :=
  ⟨by rfl, by decide, by decide, by rfl⟩

/-- Claim C3, counterexample: the `__initial__` descriptor's valid-successor
set contains the wildcard `"*"`, `"*"` names no state, yet on a row whose
first cell is literally `"*"` the transition function neither stays in the
current state nor raises the invalid-transition error: the membership test
fires first and the `STATES` lookup of `"*"` raises a `KeyError`. -/
theorem c3_counterexample :
    validStates St.initial = some ["H", "*"] ∧
    nameToState "*" = none ∧
    fsm St.initial ["*"] = Except.error (PErr.keyError "*") ∧
    fsm St.initial ["*"] ≠ Except.ok St.initial :=
  ⟨rfl, rfl, rfl, fun h => nomatch h⟩

/-- Claim C3, amended: for every current state descriptor and every
nonempty next row whose first cell is not the literal `"*"`: if the
descriptor declares no valid-successor set the transition function returns
`__final__`; otherwise if the first cell names a state of the set it
returns that state's descriptor; otherwise if the set contains the wildcard
marker the machine stays in its state; otherwise it raises an error naming
the expected successor set and the offending token. -/
theorem c3_amended (action : St) (tok : String) (rest : List String)
    (hstar : tok ≠ "*") :
    (validStates action = none → fsm action (tok :: rest) = Except.ok St.final) ∧
    (∀ vs, validStates action = some vs →
      (tok ∈ vs → ∃ st, nameToState tok = some st ∧
        fsm action (tok :: rest) = Except.ok st) ∧
      (tok ∉ vs → "*" ∈ vs → fsm action (tok :: rest) = Except.ok action) ∧
      (tok ∉ vs → "*" ∉ vs →
        fsm action (tok :: rest) = Except.error (PErr.invalidTransition vs tok))) := by
  cases action <;>
    refine ⟨fun h => by first | rfl | exact Option.noConfusion h,
      fun vs h => ?_⟩ <;>
    first
    | exact Option.noConfusion h
    | · injection h with h
        subst h
        refine ⟨fun hmem => ?_, fun hmem hwild => ?_, fun hmem hwild => ?_⟩ <;>
          first
          | (fin_cases hmem <;>
              first
              | exact absurd rfl hstar
              | exact ⟨_, rfl, rfl⟩)
          | exact absurd hwild (by decide)
          | · simp only [fsm, validStates, List.head?]
              rw [if_neg hmem, if_pos (by decide)]
          | · simp only [fsm, validStates, List.head?]
              rw [if_neg hmem, if_neg hwild]

/-- Claim C3, witness: the amended theorem applied at state `H` and token
`H_CUST`, a member of `H`'s valid-successor set. -/
theorem c3_witness :
    ∃ st, nameToState "H_CUST" = some st ∧
      fsm St.H ["H_CUST"] = Except.ok st :=
  ((c3_amended St.H "H_CUST" [] (by decide)).2 ["H_CUST", "S"] rfl).1 (by decide)

/-- `deserialize` of the text and yesno kinds never fails. -/
theorem deserializeValue_isSome (k : FKind) (hk : k ≠ FKind.integer)
    (s : String) : (deserializeValue k s).isSome = true := by
  cases k
  · rfl
  · exact absurd rfl hk
  · rfl

/-- Parsing a zipped cell list with no integer column always succeeds. -/
theorem parseCells_total (l : List (Column × String))
    (h : ∀ p ∈ l, p.1.ft.kind ≠ FKind.integer) :
    ∃ r, parseCells l = Except.ok r := by
  induction l with
  | nil => exact ⟨[], rfl⟩
  | cons p rest ih =>
    obtain ⟨c, v⟩ := p
    obtain ⟨val, hval⟩ := Option.isSome_iff_exists.mp
      (deserializeValue_isSome c.ft.kind (h (c, v) (List.mem_cons_self _ _)) v)
    obtain ⟨r, hr⟩ := ih (fun q hq => h q (List.mem_cons_of_mem _ hq))
    exact ⟨(c.name, val) :: r, by simp [parseCells, hval, hr]⟩

/-- The customer table has no integer column, so `parse_csv` on it never
fails, whatever the row. -/
theorem custParse_total (data : List String) :
    ∃ r, custTable.parse_csv data = Except.ok r := by
  unfold Table.parse_csv
  apply parseCells_total
  intro p hp
  have hmem := (List.of_mem_zip hp).1
  revert hmem
  have hall : ∀ c ∈ custTable.only_csv_columns,
      c.ft.kind ≠ FKind.integer := by decide
  exact hall p.1

/-- Claim C4: the `CUST` enter callback raises the inconsistent-state error
exactly when the processing state already holds an open customer; with no
open customer it parses the row through the customer table (which cannot
fail: the table has no integer column), merges in the current extras —
which the parsed cells can never shadow — and stores the result as the open
customer, raising no error. -/
theorem c4_enter_CUST (s : PState) (data : List String) :
    (isOpen s = true → enter_CUST s data =
      Except.error (PErr.inconsistentState
        "Found unflushed CUST record when processing a new one")) ∧
    (isOpen s = false → ∃ row, custTable.parse_csv data = Except.ok row ∧
      enter_CUST s data = Except.ok
        { s with current_customer := some ⟨merge2 row s.append_to_cust, []⟩ }) := by
  constructor
  · intro h
    simp [enter_CUST, h]
  · intro h
    obtain ⟨row, hrow⟩ := custParse_total data
    exact ⟨row, hrow, by simp [enter_CUST, h, hrow]⟩

/-- Every error `parseCells` returns is a `ValueError` from a
deserializer. -/
theorem parseCells_error_val (l : List (Column × String)) (e : PErr)
    (h : parseCells l = Except.error e) : ∃ v, e = PErr.valueError v := by
  induction l with
  | nil => exact nomatch h
  | cons p rest ih =>
    obtain ⟨c, v⟩ := p
    unfold parseCells at h
    cases hd : deserializeValue c.ft.kind v with
    | none =>
      rw [hd] at h
      exact ⟨v, (Except.error.inj h).symm⟩
    | some val =>
      rw [hd] at h
      cases hr : parseCells rest with
      | error e2 =>
        rw [hr] at h
        have he : e2 = e := Except.error.inj h
        subst he
        exact ih hr
      | ok r =>
        rw [hr] at h
        exact nomatch h

/-- Claim C5, counterexample: with a customer open, a `REF` row whose
`length` cell is not numeric makes the callback raise a `ValueError` — so
"parses, appends, raising no error" does not hold for every row. -/
theorem c5_counterexample :
    isOpen openState = true ∧
    enter_REF openState ["REF", "R1", "x"] =
      Except.error (PErr.valueError "x") :=
  ⟨rfl, by rfl⟩

/-- Claim C5, amended: the `REF` enter callback raises the
inconsistent-state error exactly when no customer is open; when a customer
is open it parses the row through the reference table — if parsing
succeeds it merges in the extras and appends to the open customer's
references, raising no error, and if a cell fails to deserialize the type
coercion failure (never the inconsistency error) propagates. -/
theorem c5_amended (s : PState) (data : List String) :
    (isOpen s = false → enter_REF s data =
      Except.error (PErr.inconsistentState "Found REF but no current customer")) ∧
    (isOpen s = true → ∀ e, enter_REF s data = Except.error e →
      ∃ v, e = PErr.valueError v) ∧
    (∀ c, s.current_customer = some c → custTruthy c = true →
      ∀ row, refTable.parse_csv data = Except.ok row →
        enter_REF s data =
          Except.ok { s with current_customer := some (Cust.mk c.fields (c.refs ++ [merge2 row s.append_to_ref])) }) := by
  refine ⟨fun h => ?_, fun h e he => ?_, fun c hc htr row hrow => ?_⟩
  · cases hc : s.current_customer with
    | none => simp [enter_REF, hc]
    | some c =>
      have htr : custTruthy c = false := by
        simpa [isOpen, hc] using h
      simp [enter_REF, hc, htr]
  · cases hc : s.current_customer with
    | none => simp [isOpen, hc] at h
    | some c =>
      have htr : custTruthy c = true := by
        simpa [isOpen, hc] using h
      simp only [enter_REF, hc, htr, if_true] at he
      cases hp : refTable.parse_csv data with
      | error e2 =>
        rw [hp] at he
        simp only [Except.error.injEq] at he
        exact he ▸ parseCells_error_val _ _ hp
      | ok row =>
        rw [hp] at he
        exact nomatch he
  · simp [enter_REF, hc, htr, hrow]

/-- `Nat.digitChar` of a value below ten is a decimal digit. -/
theorem digitChar_isDigit (m : Nat) (h : m < 10) :
    (Nat.digitChar m).isDigit = true := by
  interval_cases m <;> rfl

/-- Every character the decimal renderer emits is a digit. -/
theorem natDecimalAux_digits (fuel n : Nat) :
    (natDecimalAux fuel n).all Char.isDigit = true := by
  induction fuel generalizing n with
  | zero => rfl
  | succ f ih =>
    unfold natDecimalAux
    by_cases h : n < 10
    · simp [h, digitChar_isDigit n h]
    · simp [h, List.all_append, ih,
        digitChar_isDigit (n % 10) (Nat.mod_lt n (by decide))]

/-- With nonzero fuel the decimal renderer emits at least one character. -/
theorem natDecimalAux_ne_nil (fuel n : Nat) :
    natDecimalAux (fuel + 1) n ≠ [] := by
  unfold natDecimalAux
  by_cases h : n < 10 <;> simp [h]

/-- A nonempty digit list is a valid integer literal, bare or negated. -/
theorem validIntLit_of_digits (l : List Char) (hne : l ≠ [])
    (hd : l.all Char.isDigit = true) :
    validIntLit ⟨l⟩ = true ∧ validIntLit ⟨'-' :: l⟩ = true := by
  cases l with
  | nil => exact absurd rfl hne
  | cons c cs =>
    have hc : c.isDigit = true := by
      simp only [List.all_cons, Bool.and_eq_true] at hd
      exact hd.1
    have hcne : c ≠ '-' := by
      intro hcontra
      rw [hcontra] at hc
      exact nomatch hc
    constructor
    · show (if c = '-' then !cs.isEmpty && cs.all Char.isDigit
        else (c :: cs).all Char.isDigit) = true
      rw [if_neg hcne]
      exact hd
    · show (if ('-' : Char) = '-' then
          !(c :: cs).isEmpty && (c :: cs).all Char.isDigit
        else ('-' :: c :: cs).all Char.isDigit) = true
      rw [if_pos rfl]
      simp [hd]

/-- `str(i)` for an `int` is always a valid SQL INTEGER literal. -/
theorem validIntLit_intDecimal (i : Int) : validIntLit (intDecimal i) = true := by
  by_cases h : i < 0
  · have h2 := (validIntLit_of_digits (natDecimal i.natAbs).data
      (natDecimalAux_ne_nil _ _) (natDecimalAux_digits _ _)).2
    unfold intDecimal
    rw [if_pos h]
    exact h2
  · have h1 := (validIntLit_of_digits (natDecimal i.toNat).data
      (natDecimalAux_ne_nil _ _) (natDecimalAux_digits _ _)).1
    unfold intDecimal
    rw [if_neg h]
    exact h1

/-- Doubling every quote leaves no lone quote. -/
theorem quotesPaired_quoteSqlChars (l : List Char) :
    quotesPaired (quoteSqlChars l) = true := by
  induction l with
  | nil => rfl
  | cons c cs ih =>
    unfold quoteSqlChars
    by_cases h : c = '\''
    · simp [h, quotesPaired, ih]
    · rw [if_neg h, quotesPaired.eq_def]
      simp only [if_neg h]
      exact ih

/-- `serialize_text` always yields a valid SQL TEXT literal. -/
theorem validTextLit_serialize_text (v : String) :
    validTextLit (serialize_text v) = true := by
  show ((quoteSqlChars v.data ++ ['\'']).getLast? = some '\'' &&
    quotesPaired (quoteSqlChars v.data ++ ['\'']).dropLast) = true
  rw [List.getLast?_concat, List.dropLast_concat]
  simp [quotesPaired_quoteSqlChars]

/-- Claim C6: for each built-in field kind, serializing a deserialized
value yields a syntactically valid SQL literal of the declared type: text
becomes the value wrapped in single quotes with embedded quotes doubled,
integers become their decimal rendering (bare digits for non-negative
values), and yesno becomes `1` exactly when the value case-insensitively
equals `yes` and `0` otherwise. -/
theorem c6_roundtrip :
    (∀ s : String,
      serialize_text (deserialize_text s) = "'" ++ quote_sql_string s ++ "'" ∧
      validTextLit (serialize_text (deserialize_text s)) = true) ∧
    (∀ (s : String) (n : Int), deserialize_integer s = some n →
      validIntLit (serialize_integer n) = true ∧
      (0 ≤ n → (serialize_integer n).data.all Char.isDigit = true)) ∧
    (∀ s : String,
      serialize_yesno (deserialize_yesno s) =
        (if pyLower s = "yes" then "1" else "0") ∧
      validIntLit (serialize_yesno (deserialize_yesno s)) = true) := by
  refine ⟨fun s => ⟨rfl, validTextLit_serialize_text s⟩,
    fun s n _ => ⟨validIntLit_intDecimal n, fun hn => ?_⟩,
    fun s => ?_⟩
  · have hnn : ¬ n < 0 := Int.not_lt.mpr hn
    show (intDecimal n).data.all Char.isDigit = true
    unfold intDecimal
    rw [if_neg hnn]
    exact natDecimalAux_digits _ _
  · by_cases h : pyLower s = "yes" <;>
      simp [deserialize_yesno, serialize_yesno, h, validIntLit]

/-- Dict lookup across an append: the later (right) part wins. -/
theorem dlookup_append (a b : Row) (k : String) :
    dlookup (a ++ b) k =
      match dlookup b k with
      | some w => some w
      | none => dlookup a k := by
  induction a with
  | nil => cases h : dlookup b k <;> simp [h, dlookup]
  | cons p rest ih =>
    obtain ⟨k', v⟩ := p
    simp only [List.cons_append, dlookup, List.append_eq]
    rw [ih]
    cases h : dlookup b k <;> cases h2 : dlookup rest k <;> simp [h, h2]

/-- Inversion of a successful `enter_CUST`: the row parsed and the customer
opened from it merged with the current extras. -/
theorem enter_CUST_ok_inv (s : PState) (d : List String) (s2 : PState)
    (h : enter_CUST s d = Except.ok s2) :
    ∃ row, custTable.parse_csv d = Except.ok row ∧
      s2 = { s with current_customer := some (Cust.mk (merge2 row s.append_to_cust) []) } := by
  unfold enter_CUST at h
  by_cases ho : isOpen s = true
  · rw [if_pos ho] at h
    exact nomatch h
  · rw [if_neg ho] at h
    cases hp : custTable.parse_csv d with
    | error e =>
      rw [hp] at h
      exact nomatch h
    | ok row =>
      rw [hp] at h
      exact ⟨row, rfl, (Except.ok.inj h).symm⟩

/-- Inversion of a successful `enter_REF`: a truthy customer was open, the
row parsed, and the merged reference appended to its references. -/
theorem enter_REF_ok_inv (s : PState) (d : List String) (s2 : PState)
    (h : enter_REF s d = Except.ok s2) :
    ∃ c row, s.current_customer = some c ∧ custTruthy c = true ∧
      refTable.parse_csv d = Except.ok row ∧
      s2 = { s with current_customer := some (Cust.mk c.fields (c.refs ++ [merge2 row s.append_to_ref])) } := by
  cases hc : s.current_customer with
  | none =>
    simp only [enter_REF, hc] at h
    exact nomatch h
  | some c =>
    simp only [enter_REF, hc] at h
    by_cases htr : custTruthy c = true
    · rw [if_pos htr] at h
      cases hp : refTable.parse_csv d with
      | error e =>
        rw [hp] at h
        exact nomatch h
      | ok row =>
        rw [hp] at h
        exact ⟨c, row, rfl, htr, rfl, (Except.ok.inj h).symm⟩
    · rw [if_neg htr] at h
      exact nomatch h

/-- Claim C7: the header enter callback captures fields 7 and 8 of the row
as `insert_date` / `insert_time` extras (touching nothing else in the
processing state, so finalized customers keep their values), and as long as
those extras are current, every customer opened by `enter_CUST` and every
reference appended by `enter_REF` carries exactly those two values — the
parsed cells can never shadow them, since the extras are merged last. -/
theorem c7_header_extras (s : PState) (d : List String) (h : 9 ≤ d.length) :
    ∃ d7 d8, d.get? 7 = some d7 ∧ d.get? 8 = some d8 ∧
      enter_H s d = Except.ok { s with
        append_to_cust := some (hdrExtra d7 d8)
        append_to_ref := some (hdrExtra d7 d8) } ∧
      (∀ s1 row s2, s1.append_to_cust = some (hdrExtra d7 d8) →
        enter_CUST s1 row = Except.ok s2 →
        ∀ c, s2.current_customer = some c →
          dlookup c.fields "insert_date" = some (Val.vStr d7) ∧
          dlookup c.fields "insert_time" = some (Val.vStr d8)) ∧
      (∀ s1 row s2, s1.append_to_ref = some (hdrExtra d7 d8) →
        enter_REF s1 row = Except.ok s2 →
        ∀ c, s2.current_customer = some c →
          ∃ r, c.refs.getLast? = some r ∧
            dlookup r "insert_date" = some (Val.vStr d7) ∧
            dlookup r "insert_time" = some (Val.vStr d8)) := by
  have h7 : 7 < d.length := by omega
  have h8 : 8 < d.length := by omega
  refine ⟨d.get ⟨7, h7⟩, d.get ⟨8, h8⟩,
    List.get?_eq_get h7, List.get?_eq_get h8, ?_, ?_, ?_⟩
  · unfold enter_H
    rw [List.get?_eq_get h7, List.get?_eq_get h8]
  · intro s1 row s2 hext henter c hc
    obtain ⟨prow, _, hs2⟩ := enter_CUST_ok_inv s1 row s2 henter
    subst hs2
    obtain rfl := Option.some.inj hc
    rw [show (Cust.mk (merge2 prow s1.append_to_cust) []).fields
        = merge2 prow s1.append_to_cust from rfl, hext]
    rw [show merge2 prow (some (hdrExtra (d.get ⟨7, h7⟩) (d.get ⟨8, h8⟩)))
        = prow ++ hdrExtra (d.get ⟨7, h7⟩) (d.get ⟨8, h8⟩) from rfl]
    rw [dlookup_append, dlookup_append]
    exact ⟨rfl, rfl⟩
  · intro s1 row s2 hext henter c hc
    obtain ⟨c0, prow, _, _, _, hs2⟩ := enter_REF_ok_inv s1 row s2 henter
    subst hs2
    obtain rfl := Option.some.inj hc
    refine ⟨merge2 prow s1.append_to_ref, List.getLast?_concat _, ?_, ?_⟩ <;>
      rw [hext] <;>
      rw [show merge2 prow (some (hdrExtra (d.get ⟨7, h7⟩) (d.get ⟨8, h8⟩)))
          = prow ++ hdrExtra (d.get ⟨7, h7⟩) (d.get ⟨8, h8⟩) from rfl] <;>
      rw [dlookup_append] <;>
      rfl

/-- Claim C7, witness: the theorem applied to the sample header row (whose
fields 7 and 8 are `d1` and `d2`) in the initial state. -/
theorem c7_witness :
    ∃ d7 d8, sampleH.get? 7 = some d7 ∧ sampleH.get? 8 = some d8 ∧
      enter_H initPState sampleH = Except.ok { initPState with
        append_to_cust := some (hdrExtra d7 d8)
        append_to_ref := some (hdrExtra d7 d8) } ∧
      (∀ s1 row s2, s1.append_to_cust = some (hdrExtra d7 d8) →
        enter_CUST s1 row = Except.ok s2 →
        ∀ c, s2.current_customer = some c →
          dlookup c.fields "insert_date" = some (Val.vStr d7) ∧
          dlookup c.fields "insert_time" = some (Val.vStr d8)) ∧
      (∀ s1 row s2, s1.append_to_ref = some (hdrExtra d7 d8) →
        enter_REF s1 row = Except.ok s2 →
        ∀ c, s2.current_customer = some c →
          ∃ r, c.refs.getLast? = some r ∧
            dlookup r "insert_date" = some (Val.vStr d7) ∧
            dlookup r "insert_time" = some (Val.vStr d8)) :=
  c7_header_extras initPState sampleH (by decide)

/-- `parseCells` succeeds exactly when deserializing every zipped pair
succeeds, with the same resulting mapping. -/
theorem parseCells_ok_iff (l : List (Column × String)) (r : Row) :
    parseCells l = Except.ok r ↔ zipDeser l = some r := by
  induction l generalizing r with
  | nil => simp [parseCells, zipDeser]
  | cons p rest ih =>
    obtain ⟨c, v⟩ := p
    cases hd : deserializeValue c.ft.kind v with
    | none => simp [parseCells, zipDeser, hd]
    | some val =>
      cases hr : parseCells rest with
      | error e =>
        have hz : zipDeser rest = none := by
          cases hz : zipDeser rest with
          | none => rfl
          | some r2 =>
            have := (ih r2).mpr hz
            rw [hr] at this
            exact nomatch this
        simp [parseCells, zipDeser, hd, hr, hz]
      | ok r2 =>
        have hz : zipDeser rest = some r2 := (ih r2).mp hr
        simp [parseCells, zipDeser, hd, hr, hz]

/-- The keys of a parsed mapping are the zipped columns' names, in order. -/
theorem parseCells_keys (l : List (Column × String)) (r : Row)
    (h : parseCells l = Except.ok r) :
    r.map Prod.fst = l.map (fun p => p.1.name) := by
  induction l generalizing r with
  | nil =>
    obtain rfl := (Except.ok.inj h).symm
    rfl
  | cons p rest ih =>
    obtain ⟨c, v⟩ := p
    unfold parseCells at h
    cases hd : deserializeValue c.ft.kind v with
    | none =>
      rw [hd] at h
      exact nomatch h
    | some val =>
      rw [hd] at h
      cases hr : parseCells rest with
      | error e =>
        rw [hr] at h
        exact nomatch h
      | ok r2 =>
        rw [hr] at h
        obtain rfl := (Except.ok.inj h).symm
        simp [ih r2 hr]

/-- Zipping truncates to the shorter list: the zipped columns are exactly
the first `data.length` columns. -/
theorem zip_take_names (cols : List Column) (data : List String) :
    (cols.zip data).map (fun p => p.1.name) =
      (cols.take data.length).map Column.name := by
  induction cols generalizing data with
  | nil => simp
  | cons c cs ih =>
    cases data with
    | nil => simp
    | cons d ds => simp [ih]

/-- Claim C8, counterexample: a row with fewer cells than the reference
table's 20 CSV-participating columns can still make `parse_csv` fail — the
non-numeric `length` cell raises the coercion error, so "it does not fail"
does not hold of every short row. -/
theorem c8_counterexample :
    (["REF", "R1", "x"] : List String).length <
      (Table.only_csv_columns refTable).length ∧
    refTable.parse_csv ["REF", "R1", "x"] =
      Except.error (PErr.valueError "x") :=
  ⟨by decide, by rfl⟩

/-- Claim C8, amended: `parse_csv` positionally zips the
CSV-participating columns (declaration order, SQL-only columns skipped)
against the cells and deserializes each: it returns exactly the zipped
mapping whenever every matched cell deserializes, the arity mismatch
itself is never a failure and unmatched trailing columns are silently
absent — but a type coercion failure on a matched cell still fails. -/
theorem c8_amended (t : Table) (data : List String) :
    (∀ row, zipDeser (t.only_csv_columns.zip data) = some row →
      t.parse_csv data = Except.ok row) ∧
    (∀ row, t.parse_csv data = Except.ok row →
      zipDeser (t.only_csv_columns.zip data) = some row ∧
      row.map Prod.fst =
        (t.only_csv_columns.take data.length).map Column.name) := by
  unfold Table.parse_csv
  constructor
  · intro row hz
    exact (parseCells_ok_iff _ row).mpr hz
  · intro row hp
    refine ⟨(parseCells_ok_iff _ row).mp hp, ?_⟩
    rw [parseCells_keys _ row hp, zip_take_names]

/-- Claim C9: the enter callbacks never touch the finalized `customers`
sequence; only the `H_CUST` exit flush — which `enter_final` performs
verbatim — moves the (at most one) open customer there, clearing
`current_customer`. -/
theorem c9_customers_only_flushed (s : PState) (data : List String) :
    (∀ s2, enter_CUST s data = Except.ok s2 → s2.customers = s.customers) ∧
    (∀ s2, enter_REF s data = Except.ok s2 → s2.customers = s.customers) ∧
    (∀ s2, enter_H s data = Except.ok s2 → s2.customers = s.customers) ∧
    (exit_H_CUST s).current_customer = none ∧
    ((exit_H_CUST s).customers = s.customers ∨
      ∃ c, s.current_customer = some c ∧ custTruthy c = true ∧
        (exit_H_CUST s).customers = s.customers ++ [c]) ∧
    enter_final s data = exit_H_CUST s := by
  refine ⟨fun s2 h => ?_, fun s2 h => ?_, fun s2 h => ?_, ?_, ?_, rfl⟩
  · obtain ⟨row, _, hs2⟩ := enter_CUST_ok_inv s data s2 h
    subst hs2
    rfl
  · obtain ⟨c, row, _, _, _, hs2⟩ := enter_REF_ok_inv s data s2 h
    subst hs2
    rfl
  · unfold enter_H at h
    cases h7 : data.get? 7 with
    | none =>
      rw [h7] at h
      cases h8 : data.get? 8 with
      | none =>
        rw [h8] at h
        exact nomatch h
      | some d8 =>
        rw [h8] at h
        exact nomatch h
    | some d7 =>
      rw [h7] at h
      cases h8 : data.get? 8 with
      | none =>
        rw [h8] at h
        exact nomatch h
      | some d8 =>
        rw [h8] at h
        obtain rfl := (Except.ok.inj h).symm
        rfl
  · cases hc : s.current_customer with
    | none => simp [exit_H_CUST, hc]
    | some c => by_cases htr : custTruthy c = true <;> simp [exit_H_CUST, hc, htr]
  · cases hc : s.current_customer with
    | none =>
      left
      simp [exit_H_CUST, hc]
    | some c =>
      by_cases htr : custTruthy c = true
      · right
        exact ⟨c, rfl, htr, by simp [exit_H_CUST, hc, htr]⟩
      · left
        simp [exit_H_CUST, hc, htr]

/-- Claim C10: the header enter callback indexes cells 7 and 8 without a
guard — it succeeds on every row of at least nine cells and raises the
out-of-bounds index error (outside the spec's error taxonomy) on any
shorter row. -/
theorem c10_enter_H_unguarded (s : PState) (data : List String) :
    (9 ≤ data.length → ∃ s2, enter_H s data = Except.ok s2) ∧
    (data.length < 9 → enter_H s data = Except.error PErr.indexError) := by
  constructor
  · intro h
    have h7 : 7 < data.length := by omega
    have h8 : 8 < data.length := by omega
    refine ⟨{ s with
        append_to_cust := some (hdrExtra (data.get ⟨7, h7⟩) (data.get ⟨8, h8⟩))
        append_to_ref := some (hdrExtra (data.get ⟨7, h7⟩) (data.get ⟨8, h8⟩)) }, ?_⟩
    unfold enter_H
    rw [List.get?_eq_get h7, List.get?_eq_get h8]
  · intro h
    have h8 : data.get? 8 = none := List.get?_eq_none.mpr (by omega)
    unfold enter_H
    rw [h8]
    cases h7 : data.get? 7 <;> rfl

end CustRef
